import Mathlib

/-!
Verification of the uefi-rs core against its design specification.

The crate root (`src/uefi/src/lib.rs`) re-exports the status/result
translation layer (`Status`, `StatusExt`, `Result`), the phase-tagged
`SystemTable<Boot>` / `SystemTable<Runtime>` tables, and the protocol
access layer; the bodies of those modules are not part of the observed
source slice, so the definitions below model them from the specification
(each such definition says so in its doc comment).  Status codes are
32-bit machine words, embedded as `Nat` with explicit `2 ^ 32` bounds;
the error bit is bit 31, so for a code `c < 2 ^ 32` "bit 31 set" is
exactly `2 ^ 31 ≤ c`.
-/

namespace Spec2Proof

/-- The error bit of a 32-bit status word: bit 31. -/
def errorBit : Nat := 2 ^ 31

/-- Modelled from the spec: the enumerated error kinds of the
Status/Result Translator (§4.1) — not-found, invalid-parameter,
buffer-too-small, out-of-resources, device-error, already-started,
not-ready, timeout, aborted, compromised-data, security-violation,
plus the protocol-access errors unsupported and access-denied (§4.3),
and an `other` catch-all carrying the unrecognized raw code.
The implementing `result` module is not in the observed source. -/
inductive ErrorKind where
  | notFound
  | invalidParameter
  | unsupported
  | bufferTooSmall
  | notReady
  | deviceError
  | outOfResources
  | accessDenied
  | timeout
  | alreadyStarted
  | aborted
  | securityViolation
  | compromisedData
  | other (code : Nat)
deriving DecidableEq, Repr

/-- Modelled from the spec: the documented 32-bit status code of each
enumerated error kind (UEFI status values: error bit plus the
specification's low code).  `other` carries its raw code unchanged. -/
def ErrorKind.encode : ErrorKind → Nat
  | .invalidParameter => errorBit + 2
  | .unsupported => errorBit + 3
  | .bufferTooSmall => errorBit + 5
  | .notReady => errorBit + 6
  | .deviceError => errorBit + 7
  | .outOfResources => errorBit + 9
  | .notFound => errorBit + 14
  | .accessDenied => errorBit + 15
  | .timeout => errorBit + 18
  | .alreadyStarted => errorBit + 20
  | .aborted => errorBit + 21
  | .securityViolation => errorBit + 26
  | .compromisedData => errorBit + 33
  | .other code => code

/-- An error kind with a documented status code (everything except the
`other` catch-all). -/
def ErrorKind.documented : ErrorKind → Prop
  | .other _ => False
  | _ => True

instance (k : ErrorKind) : Decidable k.documented := by
  cases k <;> simp [ErrorKind.documented] <;> infer_instance

/-- Modelled from the spec: classification of the low 31 bits of an
error status into an enumerated kind, with the `other` catch-all
(carrying the full raw code) for unrecognized values (§4.1). -/
def classifyError (low : Nat) : ErrorKind :=
  if low = 2 then .invalidParameter
  else if low = 3 then .unsupported
  else if low = 5 then .bufferTooSmall
  else if low = 6 then .notReady
  else if low = 7 then .deviceError
  else if low = 9 then .outOfResources
  else if low = 14 then .notFound
  else if low = 15 then .accessDenied
  else if low = 18 then .timeout
  else if low = 20 then .alreadyStarted
  else if low = 21 then .aborted
  else if low = 26 then .securityViolation
  else if low = 33 then .compromisedData
  else .other (errorBit + low)

/-- Modelled from the spec: the success-or-error result a raw status
code is translated to — plain success, success with a preserved warning
code, or an error-kind-classified failure (§4.1, Result data model). -/
inductive UefiResult where
  | success
  | successWithWarning (code : Nat)
  | err (kind : ErrorKind)
deriving DecidableEq, Repr

/-- Modelled from the spec: the Status/Result Translator (§4.1,
re-exported from the crate root as `Status`/`StatusExt`): bit 31 set
⇒ error classified by the remaining bits; nonzero with bit 31 clear
⇒ success-with-warning preserving the code; zero ⇒ plain success. -/
def translate (code : Nat) : UefiResult :=
  if errorBit ≤ code then .err (classifyError (code - errorBit))
  else if code = 0 then .success
  else .successWithWarning code

/-- The low codes the translator recognizes as enumerated error kinds. -/
def knownErrorLows : List Nat := [2, 3, 5, 6, 7, 9, 14, 15, 18, 20, 21, 26, 33]

/-- Modelled from the spec: access modes of `open_protocol` (§4.3):
exclusive, get-only, by-driver, test-presence. -/
inductive OpenMode where
  | exclusive
  | getOnly
  | byDriver
  | testPresence
deriving DecidableEq, Repr

/-- Modelled from the spec: a MemoryDescriptor (§3): type classification,
physical start, virtual start, page count, attribute flags; immutable
once captured. -/
structure MemoryDescriptor where
  ty : Nat
  physStart : Nat
  virtStart : Nat
  pageCount : Nat
  att : Nat
deriving DecidableEq, Repr

/-- The UEFI page size in bytes. -/
def pageSize : Nat := 4096

/-- One past the last physical byte a descriptor covers. -/
def MemoryDescriptor.physEnd (d : MemoryDescriptor) : Nat :=
  d.physStart + d.pageCount * pageSize

/-- Adjacent-descriptor order the firmware keeps its map in: strictly
increasing physical start, and the earlier region ends at or before the
later one starts. -/
def descOrdered (a b : MemoryDescriptor) : Prop :=
  a.physStart < b.physStart ∧ a.physEnd ≤ b.physStart

/-- Modelled from the spec: the MemoryMap (§3, §4.2): ordered descriptor
sequence plus the opaque map key (generation token) it was captured at. -/
structure MemoryMap where
  entries : List MemoryDescriptor
  mapKey : Nat
deriving DecidableEq, Repr

/-- Modelled from the spec: the observable firmware state behind the
boot services: the memory-map generation counter (bumped by every
allocation or free, §4.2/§4.4), the current descriptor list, the set of
(handle, guid) pairs whose firmware-registered contracts include the
guid (§4.3), and the multiset of live protocol opens with their modes
(firmware's open-count book-keeping, §4.3). -/
structure FwState where
  generation : Nat
  descriptors : List MemoryDescriptor
  supported : List (Nat × Nat)
  opens : List (Nat × Nat × OpenMode)
deriving DecidableEq, Repr

/-- Firmware well-formedness contract: the descriptor list is kept in
adjacent `descOrdered` order (§4.2 invariant, firmware side). -/
def FwState.wf (fw : FwState) : Prop :=
  List.Chain' descOrdered fw.descriptors

/-- Modelled from the spec: a boot-phase allocation (or free): it changes
firmware memory usage, so it bumps the map generation, staling every
previously captured map key (§4.2). -/
def allocatePages (fw : FwState) : FwState :=
  ⟨fw.generation + 1, fw.descriptors, fw.supported, fw.opens⟩

/-- Per-descriptor stride in bytes reported by `query_map_size`. -/
def descriptorStride : Nat := 48

/-- Buffer size currently needed to capture the map. -/
def requiredMapSize (fw : FwState) : Nat :=
  fw.descriptors.length * descriptorStride

/-- Modelled from the spec: `query_map_size` (§4.2) — the advisory
buffer size currently needed plus the per-descriptor stride. -/
def queryMapSize (fw : FwState) : Nat × Nat :=
  (requiredMapSize fw, descriptorStride)

/-- Modelled from the spec: `capture_map(buffer)` (§4.2): fails with
buffer-too-small when the buffer cannot hold the current descriptors,
otherwise returns the MemoryMap (descriptor sequence plus map key);
the caller-visible firmware state is returned alongside the result. -/
def captureMap (fw : FwState) (bufferSize : Nat) :
    FwState × Except ErrorKind MemoryMap :=
  if bufferSize < requiredMapSize fw then (fw, .error .bufferTooSmall)
  else (fw, .ok ⟨fw.descriptors, fw.generation⟩)

/-- Whether firmware records a live open for the (handle, guid) pair. -/
def hasOpen (fw : FwState) (h g : Nat) : Bool :=
  fw.opens.any fun e => e.1 == h && e.2.1 == g

/-- Number of live opens firmware records for the (handle, guid) pair. -/
def countOpens (fw : FwState) (h g : Nat) : Nat :=
  (fw.opens.filter fun e => e.1 == h && e.2.1 == g).length

/-- Modelled from the spec: a ProtocolGuard (§3, §4.3): a live scoped
reference bound to the Handle+Guid+mode it was opened with. -/
structure ProtocolGuard where
  handle : Nat
  guid : Nat
  mode : OpenMode
deriving DecidableEq, Repr

/-- Modelled from the spec: `open_protocol(handle, guid, mode)` (§4.3):
fails with unsupported when the handle does not implement the guid, with
access-denied when an exclusive open conflicts with an existing opener;
on success in a reference-taking mode it increments firmware's
open-count and yields a guard; test-presence succeeds without taking a
reference (no guard, no count increment, no release ever needed). -/
def openProtocol (fw : FwState) (h g : Nat) (mode : OpenMode) :
    FwState × Except ErrorKind (Option ProtocolGuard) :=
  if (h, g) ∈ fw.supported then
    if mode = .testPresence then (fw, .ok none)
    else if mode = .exclusive ∧ hasOpen fw h g then (fw, .error .accessDenied)
    else (⟨fw.generation, fw.descriptors, fw.supported, (h, g, mode) :: fw.opens⟩,
      .ok (some ⟨h, g, mode⟩))
  else (fw, .error .unsupported)

/-- Modelled from the spec: guard release (§4.3): informs firmware the
protocol is no longer in use, decrementing the open-count for the
guard's (handle, guid) pair. -/
def releaseProtocol (fw : FwState) (h g : Nat) : FwState :=
  ⟨fw.generation, fw.descriptors, fw.supported,
    fw.opens.eraseP fun e => e.1 == h && e.2.1 == g⟩

/-- Tracked acquire/release events of the protocol-access layer, used to
state the exactly-once release discipline. -/
inductive GuardEvent where
  | opened (h g : Nat)
  | released (h g : Nat)
deriving DecidableEq, Repr

/-- How the caller's body of a scoped protocol use ends: normal
completion, an early return, or a failure propagated outward. -/
inductive BodyOutcome where
  | completed
  | earlyReturn
  | failed (e : ErrorKind)
deriving DecidableEq, Repr

/-- Modelled from the spec: the scoped-acquisition-with-guaranteed-release
shape of protocol access (§4.3, §9 "Scoped guard release"): open, run the
caller's body, and release on every exit path of the body; when the open
yields no guard (failure, or test-presence) no release runs.  Returns the
final firmware state, the acquire/release event trace, and the outcome. -/
def withProtocol (fw : FwState) (h g : Nat) (mode : OpenMode)
    (body : ProtocolGuard → BodyOutcome) :
    FwState × List GuardEvent × Except ErrorKind BodyOutcome :=
  match openProtocol fw h g mode with
  | (fw1, .error e) => (fw1, [], .error e)
  | (fw1, .ok none) => (fw1, [], .ok .completed)
  | (fw1, .ok (some guard)) =>
      let outcome := body guard
      (releaseProtocol fw1 h g, [.opened h g, .released h g], .ok outcome)

/-- Whether an event is an `opened` event for the pair. -/
def isOpenedEv (h g : Nat) : GuardEvent → Bool
  | .opened h2 g2 => h2 == h && g2 == g
  | .released _ _ => false

/-- Whether an event is a `released` event for the pair. -/
def isReleasedEv (h g : Nat) : GuardEvent → Bool
  | .released h2 g2 => h2 == h && g2 == g
  | .opened _ _ => false

/-- Number of `opened` events for the pair in a trace. -/
def countOpened (h g : Nat) (tr : List GuardEvent) : Nat :=
  (tr.filter (isOpenedEv h g)).length

/-- Number of `released` events for the pair in a trace. -/
def countReleased (h g : Nat) (tr : List GuardEvent) : Nat :=
  (tr.filter (isReleasedEv h g)).length

/-- Modelled from the spec: the two phases of the service-table state
machine (§4.4): `boot`, and the terminal `runtime`. -/
inductive Phase where
  | boot
  | runtime
deriving DecidableEq, Repr

/-- Modelled from the spec: the operations the phase-tagged tables can
expose — the boot-only set (allocation, protocol discovery/open,
event/timer, memory-map query, §3/§4.4) and the runtime-class set (time
services, variable services, system reset, §3). -/
inductive Op where
  | allocatePagesOp
  | freePagesOp
  | locateHandlesOp
  | openProtocolOp
  | createEventOp
  | setTimerOp
  | getMemoryMapOp
  | getTimeOp
  | setTimeOp
  | getVariableOp
  | setVariableOp
  | resetSystemOp
deriving DecidableEq, Repr

/-- The boot-only operations: allocation, protocol discovery/open,
event/timer, memory-map query. -/
def Op.isBootOnly : Op → Bool
  | .allocatePagesOp | .freePagesOp | .locateHandlesOp | .openProtocolOp
  | .createEventOp | .setTimerOp | .getMemoryMapOp => true
  | _ => false

/-- The runtime-class operations: time services, variable services,
system reset. -/
def Op.isRuntimeClass : Op → Bool
  | .getTimeOp | .setTimeOp | .getVariableOp | .setVariableOp
  | .resetSystemOp => true
  | _ => false

/-- The operations invocable through the phase's service table.  Per the
crate root docs (src/uefi/src/lib.rs): `SystemTable<Boot>` "provides
access to both boot and runtime services", so in boot phase every
operation is available; `SystemTable<Runtime>` exposes only the
runtime-class set. -/
def available : Phase → Op → Bool
  | .boot, _ => true
  | .runtime, op => op.isRuntimeClass

/-- An action the caller can attempt against the service table: invoking
an operation, or the one-way boot-to-runtime transition. -/
inductive Action where
  | invoke (op : Op)
  | exitBootPhaseAct
deriving DecidableEq, Repr

/-- Modelled from the spec: the steps of the phase state machine (§4.4):
an operation can be invoked only when the current phase's table exposes
it (and leaves the phase unchanged), and the single transition step goes
from boot to runtime; runtime is terminal. -/
inductive Step : Phase → Action → Phase → Prop where
  | invoke (p : Phase) (op : Op) :
      available p op = true → Step p (.invoke op) p
  | exit : Step .boot .exitBootPhaseAct .runtime

/-- A finite sequence of steps of the phase state machine. -/
inductive Trace : Phase → List Action → Phase → Prop where
  | nil (p : Phase) : Trace p [] p
  | cons {p q r : Phase} {a : Action} {acts : List Action} :
      Step p a q → Trace q acts r → Trace p (a :: acts) r

/-- Modelled from the spec: `exit_boot_phase(image_identity, map_key)`
(§4.4): firmware validates the map key against its current generation;
a stale key (any allocation/free after capture bumped the generation)
fails with the invalid-parameter class error, a current key succeeds and
produces the runtime phase. -/
def exitBootPhase (fw : FwState) (imageIdentity mapKey : Nat) :
    Except ErrorKind Phase :=
  if mapKey = fw.generation then .ok .runtime
  else .error .invalidParameter

/-- Modelled from the spec: the bounded capture-then-exit retry loop
(§4.4, §9 "Retry-bounded transition"): each attempt re-captures the map
key, suffers an intervening allocation when the environment `interfere`s
at that attempt index, then tries `exit_boot_phase`; a stale key retries
with one less unit of fuel; exhausted fuel is the fatal outcome `none`. -/
def exitWithRetry (interfere : Nat → Bool) :
    Nat → Nat → FwState → Option Phase
  | 0, _, _ => none
  | Nat.succ fuel, i, fw =>
      let key := (captureMap fw (requiredMapSize fw)).2.toOption.elim 0
        MemoryMap.mapKey
      let fw1 := if interfere i then allocatePages fw else fw
      match exitBootPhase fw1 0 key with
      | .ok p => some p
      | .error _ => exitWithRetry interfere fuel (i + 1) fw1

/-- C1: for every 32-bit status code, `translate` yields an error exactly
when bit 31 is set (which for a code below `2 ^ 32` is exactly
`2 ^ 31 ≤ code`), yields success-with-warning preserving the code exactly
when bit 31 is clear and the code is nonzero, and yields plain success
exactly when the code is zero. -/
theorem C1_translate_trichotomy (code : Nat) (hlt : code < 2 ^ 32) :
    (Nat.testBit code 31 = (errorBit ≤ code)) ∧
    ((∃ k, translate code = .err k) ↔ errorBit ≤ code) ∧
    (translate code = .successWithWarning code ↔ (code < errorBit ∧ code ≠ 0)) ∧
    (translate code = .success ↔ code = 0) := by
  have hbit : Nat.testBit code 31 = decide (errorBit ≤ code) := by
    rw [Nat.testBit_to_div_mod]
    have h31 : code / 2 ^ 31 < 2 := by
      have : code < 2 * 2 ^ 31 := by
        have : (2 : Nat) * 2 ^ 31 = 2 ^ 32 := by norm_num
        omega
      omega
    rcases Nat.lt_or_ge code (2 ^ 31) with h | h
    · have hz : code / 2 ^ 31 = 0 := Nat.div_eq_of_lt h
      simp only [hz]
      have : ¬ errorBit ≤ code := by simp only [errorBit]; omega
      simp [this]
    · have hone : code / 2 ^ 31 = 1 := by
        have := Nat.one_le_div_iff (show 0 < 2 ^ 31 by norm_num) |>.mpr h
        omega
      simp only [hone]
      have : errorBit ≤ code := by simp only [errorBit]; omega
      simp [this]
  refine ⟨by rw [hbit]; simp, ?_, ?_, ?_⟩
  · constructor
    · rintro ⟨k, hk⟩
      by_contra hnot
      unfold translate at hk
      rw [if_neg hnot] at hk
      by_cases h2 : code = 0
      · rw [if_pos h2] at hk; exact absurd hk (by simp)
      · rw [if_neg h2] at hk; exact absurd hk (by simp)
    · intro h
      exact ⟨classifyError (code - errorBit), by unfold translate; rw [if_pos h]⟩
  · constructor
    · intro h
      unfold translate at h
      by_cases h1 : errorBit ≤ code
      · rw [if_pos h1] at h; exact absurd h (by simp)
      · rw [if_neg h1] at h
        by_cases h2 : code = 0
        · rw [if_pos h2] at h; exact absurd h (by simp)
        · exact ⟨Nat.lt_of_not_le h1, h2⟩
    · rintro ⟨h1, h2⟩
      unfold translate
      rw [if_neg (Nat.not_le_of_lt h1), if_neg h2]
  · constructor
    · intro h
      unfold translate at h
      by_cases h1 : errorBit ≤ code
      · rw [if_pos h1] at h; exact absurd h (by simp)
      · rw [if_neg h1] at h
        by_cases h2 : code = 0
        · exact h2
        · rw [if_neg h2] at h; exact absurd h (by simp)
    · intro h
      subst h
      unfold translate
      have : ¬ errorBit ≤ 0 := by simp [errorBit]
      rw [if_neg this, if_pos rfl]

/-- Witness for C1 at the concrete code `2 ^ 31 + 5` (an error code). -/
theorem C1_translate_trichotomy_witness :
    (Nat.testBit (2 ^ 31 + 5) 31 = (errorBit ≤ 2 ^ 31 + 5)) ∧
    ((∃ k, translate (2 ^ 31 + 5) = .err k) ↔ errorBit ≤ 2 ^ 31 + 5) ∧
    (translate (2 ^ 31 + 5) = .successWithWarning (2 ^ 31 + 5) ↔
      (2 ^ 31 + 5 < errorBit ∧ 2 ^ 31 + 5 ≠ 0)) ∧
    (translate (2 ^ 31 + 5) = .success ↔ 2 ^ 31 + 5 = 0) :=
  C1_translate_trichotomy (2 ^ 31 + 5) (by norm_num)

/-- C8: for every enumerated error kind with a documented status code,
encoding the kind back to its code and translating again yields the same
kind: `translate ∘ encode` is the identity on documented error kinds. -/
theorem C8_encode_translate_roundtrip (k : ErrorKind) (h : k.documented) :
    translate k.encode = .err k := by
  cases k <;> first
    | exact h.elim
    | decide

/-- Witness for C8 at the concrete kind `notFound`. -/
theorem C8_encode_translate_roundtrip_witness :
    translate ErrorKind.notFound.encode = .err .notFound :=
  C8_encode_translate_roundtrip .notFound trivial

/-- C9: translation is total over 32-bit codes — in particular, a code
with bit 31 set whose remaining bits match no enumerated error kind still
translates successfully, to the `other` catch-all carrying the code. -/
theorem C9_unknown_error_catchall (code : Nat) (h1 : errorBit ≤ code)
    (h2 : code < 2 ^ 32) (h3 : code - errorBit ∉ knownErrorLows) :
    translate code = .err (.other code) := by
  unfold translate
  rw [if_pos h1]
  simp only [knownErrorLows, List.mem_cons, List.not_mem_nil, or_false] at h3
  push_neg at h3
  obtain ⟨n2, n3, n5, n6, n7, n9, n14, n15, n18, n20, n21, n26, n33⟩ := h3
  unfold classifyError
  rw [if_neg n2, if_neg n3, if_neg n5, if_neg n6, if_neg n7, if_neg n9,
    if_neg n14, if_neg n15, if_neg n18, if_neg n20, if_neg n21, if_neg n26,
    if_neg n33]
  have : errorBit + (code - errorBit) = code := Nat.add_sub_cancel' h1
  rw [this]

/-- Witness for C9 at the concrete code `2 ^ 31 + 999` (unrecognized). -/
theorem C9_unknown_error_catchall_witness :
    translate (2 ^ 31 + 999) = .err (.other (2 ^ 31 + 999)) :=
  C9_unknown_error_catchall (2 ^ 31 + 999) (by norm_num [errorBit])
    (by norm_num) (by decide)

instance : IsTrans MemoryDescriptor descOrdered where
  trans a b c hab hbc :=
    ⟨Nat.lt_trans hab.1 hbc.1, Nat.le_trans hab.2 (Nat.le_of_lt hbc.1)⟩

/-- C4: every MemoryMap a successful `capture_map` returns (from a
firmware state honouring the firmware-side map-order contract) has its
descriptor sequence strictly sorted ascending by physical start address
and pairwise non-overlapping. -/
theorem C4_capture_map_sorted_disjoint (fw : FwState) (bufferSize : Nat)
    (m : MemoryMap) (hwf : fw.wf)
    (hok : (captureMap fw bufferSize).2 = .ok m) :
    m.entries.Pairwise (fun a b => a.physStart < b.physStart) ∧
    m.entries.Pairwise (fun a b => a.physEnd ≤ b.physStart) := by
  have hent : m.entries = fw.descriptors := by
    unfold captureMap at hok
    by_cases hlt : bufferSize < requiredMapSize fw
    · rw [if_pos hlt] at hok
      exact absurd hok (by simp)
    · rw [if_neg hlt] at hok
      injection hok with h1
      rw [← h1]
  have hpw : fw.descriptors.Pairwise descOrdered :=
    List.chain'_iff_pairwise.mp hwf
  rw [hent]
  exact ⟨hpw.imp fun hab => hab.1, hpw.imp fun hab => hab.2⟩

/-- Witness for C4: a two-descriptor firmware map. -/
theorem C4_capture_map_sorted_disjoint_witness :
    ([⟨7, 0, 0, 1, 0⟩, ⟨7, 8192, 0, 2, 0⟩] :
        List MemoryDescriptor).Pairwise
      (fun a b => a.physStart < b.physStart) ∧
    ([⟨7, 0, 0, 1, 0⟩, ⟨7, 8192, 0, 2, 0⟩] :
        List MemoryDescriptor).Pairwise
      (fun a b => a.physEnd ≤ b.physStart) :=
  C4_capture_map_sorted_disjoint
    ⟨0, [⟨7, 0, 0, 1, 0⟩, ⟨7, 8192, 0, 2, 0⟩], [], []⟩ 96
    ⟨[⟨7, 0, 0, 1, 0⟩, ⟨7, 8192, 0, 2, 0⟩], 0⟩
    (by constructor
        · exact ⟨by norm_num, by norm_num [MemoryDescriptor.physEnd, pageSize]⟩
        · exact List.chain'_singleton _)
    (by rfl)

/-- C7: when `open_protocol` or `capture_map` fails, the caller sees only
the error: the caller-visible firmware state it is returned with is the
input state, unchanged — no partially-initialized guard or map escapes. -/
theorem C7_failure_no_partial_state (fw : FwState) (h g bufferSize : Nat)
    (mode : OpenMode) (e1 e2 : ErrorKind) :
    ((openProtocol fw h g mode).2 = .error e1 →
      (openProtocol fw h g mode).1 = fw) ∧
    ((captureMap fw bufferSize).2 = .error e2 →
      (captureMap fw bufferSize).1 = fw) := by
  constructor
  · intro herr
    unfold openProtocol at herr ⊢
    split_ifs at herr ⊢ <;> simp_all
  · intro _
    unfold captureMap
    split_ifs <;> rfl

/-- Witness for C7: an unsupported open and an undersized capture both
fail and return the firmware state unchanged. -/
theorem C7_failure_no_partial_state_witness :
    ((openProtocol ⟨0, [⟨7, 0, 0, 1, 0⟩], [], []⟩ 1 2 .exclusive).2 =
        .error .unsupported →
      (openProtocol ⟨0, [⟨7, 0, 0, 1, 0⟩], [], []⟩ 1 2 .exclusive).1 =
        ⟨0, [⟨7, 0, 0, 1, 0⟩], [], []⟩) ∧
    ((captureMap ⟨0, [⟨7, 0, 0, 1, 0⟩], [], []⟩ 0).2 =
        .error .bufferTooSmall →
      (captureMap ⟨0, [⟨7, 0, 0, 1, 0⟩], [], []⟩ 0).1 =
        ⟨0, [⟨7, 0, 0, 1, 0⟩], [], []⟩) :=
  C7_failure_no_partial_state ⟨0, [⟨7, 0, 0, 1, 0⟩], [], []⟩ 1 2 0
    .exclusive .unsupported .bufferTooSmall

/-- C5: for every successful, reference-taking `open_protocol`, the
scoped use runs the guard's release exactly once — whatever the body's
exit path (completion, early return, or failure) the event trace is one
`opened` followed by one `released` — and every execution of the scoped
use, successful or not, balances opens and releases, so none leaks an
open or releases twice. -/
theorem C5_release_exactly_once (fw : FwState) (h g : Nat)
    (mode : OpenMode) (body : ProtocolGuard → BodyOutcome)
    (guard : ProtocolGuard) (fw1 : FwState)
    (hok : openProtocol fw h g mode = (fw1, .ok (some guard))) :
    ((withProtocol fw h g mode body).2.1 =
      [.opened h g, .released h g] ∧
     countOpened h g (withProtocol fw h g mode body).2.1 = 1 ∧
     countReleased h g (withProtocol fw h g mode body).2.1 = 1) ∧
    (∀ mode2 : OpenMode,
      countOpened h g (withProtocol fw h g mode2 body).2.1 =
        countReleased h g (withProtocol fw h g mode2 body).2.1) := by
  have hcnt1 : ∀ hh gg : Nat,
      countOpened hh gg [GuardEvent.opened hh gg, GuardEvent.released hh gg] = 1 := by
    intro hh gg
    simp [countOpened, List.filter, isOpenedEv]
  have hcnt2 : ∀ hh gg : Nat,
      countReleased hh gg [GuardEvent.opened hh gg, GuardEvent.released hh gg] = 1 := by
    intro hh gg
    simp [countReleased, List.filter, isReleasedEv]
  constructor
  · have htr : (withProtocol fw h g mode body).2.1 =
        [.opened h g, .released h g] := by
      unfold withProtocol
      rw [hok]
    rw [htr]
    exact ⟨rfl, hcnt1 h g, hcnt2 h g⟩
  · intro mode2
    rcases hcase : openProtocol fw h g mode2 with ⟨fw2, res⟩
    rcases res with e | og
    · unfold withProtocol
      rw [hcase]
      rfl
    · rcases og with _ | guard2
      · unfold withProtocol
        rw [hcase]
        rfl
      · have htr : (withProtocol fw h g mode2 body).2.1 =
            [.opened h g, .released h g] := by
          unfold withProtocol
          rw [hcase]
        rw [htr, hcnt1 h g, hcnt2 h g]

/-- Witness for C5: a get-only open on a supported pair with a body that
returns early. -/
theorem C5_release_exactly_once_witness :
    ((withProtocol ⟨0, [], [(1, 2)], []⟩ 1 2 .getOnly
        (fun _ => .earlyReturn)).2.1 =
      [.opened 1 2, .released 1 2] ∧
     countOpened 1 2 (withProtocol ⟨0, [], [(1, 2)], []⟩ 1 2 .getOnly
        (fun _ => .earlyReturn)).2.1 = 1 ∧
     countReleased 1 2 (withProtocol ⟨0, [], [(1, 2)], []⟩ 1 2 .getOnly
        (fun _ => .earlyReturn)).2.1 = 1) ∧
    (∀ mode2 : OpenMode,
      countOpened 1 2 (withProtocol ⟨0, [], [(1, 2)], []⟩ 1 2 mode2
        (fun _ => .earlyReturn)).2.1 =
      countReleased 1 2 (withProtocol ⟨0, [], [(1, 2)], []⟩ 1 2 mode2
        (fun _ => .earlyReturn)).2.1) :=
  C5_release_exactly_once ⟨0, [], [(1, 2)], []⟩ 1 2 .getOnly
    (fun _ => .earlyReturn) ⟨1, 2, .getOnly⟩
    ⟨0, [], [(1, 2)], [(1, 2, .getOnly)]⟩ (by rfl)

/-- C6: an exclusive `open_protocol` on a Handle+Guid pair with a live
guard fails with access-denied; from a state with no live guard, an
exclusive open succeeds leaving exactly one live open for the pair
(so at most one exclusive guard can be live system-wide), a second
exclusive open on the result is denied, and after the first guard's
release the retried exclusive open succeeds. -/
theorem C6_exclusive_conflict_and_retry (fw : FwState) (h g : Nat)
    (hsup : (h, g) ∈ fw.supported) :
    (hasOpen fw h g = true →
      (openProtocol fw h g .exclusive).2 = .error .accessDenied) ∧
    (hasOpen fw h g = false →
      (openProtocol fw h g .exclusive).2 = .ok (some ⟨h, g, .exclusive⟩) ∧
      countOpens (openProtocol fw h g .exclusive).1 h g = 1 ∧
      (openProtocol (openProtocol fw h g .exclusive).1 h g .exclusive).2 =
        .error .accessDenied ∧
      (openProtocol
          (releaseProtocol (openProtocol fw h g .exclusive).1 h g)
          h g .exclusive).2 = .ok (some ⟨h, g, .exclusive⟩)) := by
  have hdenied : ∀ fwx : FwState, (h, g) ∈ fwx.supported →
      hasOpen fwx h g = true →
      (openProtocol fwx h g .exclusive).2 = .error .accessDenied := by
    intro fwx hs hl
    unfold openProtocol
    rw [if_pos hs]
    rw [if_neg (show ¬ (OpenMode.exclusive = OpenMode.testPresence) by simp)]
    rw [if_pos ⟨rfl, hl⟩]
  have hfree : ∀ fwx : FwState, (h, g) ∈ fwx.supported →
      hasOpen fwx h g = false →
      openProtocol fwx h g .exclusive =
        (⟨fwx.generation, fwx.descriptors, fwx.supported,
          (h, g, .exclusive) :: fwx.opens⟩, .ok (some ⟨h, g, .exclusive⟩)) := by
    intro fwx hs hn
    unfold openProtocol
    rw [if_pos hs]
    rw [if_neg (show ¬ (OpenMode.exclusive = OpenMode.testPresence) by simp)]
    rw [if_neg (show ¬ (OpenMode.exclusive = OpenMode.exclusive ∧
      hasOpen fwx h g = true) by simp [hn])]
  constructor
  · intro hlive
    exact hdenied fw hsup hlive
  · intro hnone
    have hopen1 := hfree fw hsup hnone
    have hfw1 : (openProtocol fw h g .exclusive).1 =
        ⟨fw.generation, fw.descriptors, fw.supported,
          (h, g, .exclusive) :: fw.opens⟩ := by rw [hopen1]
    have hlive1 : hasOpen (⟨fw.generation, fw.descriptors, fw.supported,
        (h, g, .exclusive) :: fw.opens⟩ : FwState) h g = true := by
      simp [hasOpen]
    have hcount0 : countOpens fw h g = 0 := by
      unfold countOpens
      unfold hasOpen at hnone
      rw [List.any_eq_false] at hnone
      rw [List.filter_eq_nil_iff.mpr ?_]
      · rfl
      · intro e he
        simpa using hnone e he
    refine ⟨by rw [hopen1], ?_, ?_, ?_⟩
    · rw [hfw1]
      unfold countOpens at hcount0 ⊢
      have hstep : List.filter
          (fun e => e.1 == h && e.2.1 == g)
          ((h, g, OpenMode.exclusive) :: fw.opens) =
          (h, g, OpenMode.exclusive) ::
            List.filter (fun e => e.1 == h && e.2.1 == g) fw.opens := by
        rw [List.filter_cons_of_pos]
        simp
      simp only [hstep, List.length_cons]
      simpa using hcount0
    · rw [hfw1]
      exact hdenied _ hsup hlive1
    · have hrel : releaseProtocol
          (⟨fw.generation, fw.descriptors, fw.supported,
            (h, g, .exclusive) :: fw.opens⟩ : FwState) h g = fw := by
        unfold releaseProtocol
        simp [List.eraseP_cons]
      rw [hfw1, hrel, hopen1]

/-- Witness for C6: the pair (1, 2) on a firmware state supporting it
with no live opens. -/
theorem C6_exclusive_conflict_and_retry_witness :
    (hasOpen ⟨0, [], [(1, 2)], []⟩ 1 2 = true →
      (openProtocol ⟨0, [], [(1, 2)], []⟩ 1 2 .exclusive).2 =
        .error .accessDenied) ∧
    (hasOpen ⟨0, [], [(1, 2)], []⟩ 1 2 = false →
      (openProtocol ⟨0, [], [(1, 2)], []⟩ 1 2 .exclusive).2 =
        .ok (some ⟨1, 2, .exclusive⟩) ∧
      countOpens (openProtocol ⟨0, [], [(1, 2)], []⟩ 1 2 .exclusive).1 1 2 = 1 ∧
      (openProtocol (openProtocol ⟨0, [], [(1, 2)], []⟩ 1 2 .exclusive).1
        1 2 .exclusive).2 = .error .accessDenied ∧
      (openProtocol
          (releaseProtocol
            (openProtocol ⟨0, [], [(1, 2)], []⟩ 1 2 .exclusive).1 1 2)
          1 2 .exclusive).2 = .ok (some ⟨1, 2, .exclusive⟩)) :=
  C6_exclusive_conflict_and_retry ⟨0, [], [(1, 2)], []⟩ 1 2 (by decide)

theorem runtime_step_analysis {a : Action} {q : Phase}
    (hs : Step .runtime a q) :
    q = .runtime ∧ ∀ op, a = .invoke op → op.isBootOnly = false := by
  cases hs with
  | invoke _ op hav =>
      refine ⟨rfl, ?_⟩
      intro op2 heq
      injection heq with h2
      subst h2
      revert hav
      cases op <;> simp [available, Op.isRuntimeClass, Op.isBootOnly]

theorem trace_from_runtime {p q : Phase} {acts : List Action}
    (htr : Trace p acts q) :
    p = .runtime →
    q = .runtime ∧ ∀ op, Action.invoke op ∈ acts → op.isBootOnly = false := by
  induction htr with
  | nil p0 =>
      intro hp
      refine ⟨hp, ?_⟩
      intro op hmem
      exact absurd hmem (List.not_mem_nil _)
  | cons hs htl ih =>
      intro hp
      subst hp
      obtain ⟨hq, hstep⟩ := runtime_step_analysis hs
      obtain ⟨hr, hall⟩ := ih hq
      refine ⟨hr, ?_⟩
      intro op hmem
      rcases List.mem_cons.mp hmem with h1 | h2
      · exact hstep op h1.symm
      · exact hall op h2

/-- C2: from the runtime phase produced by a successful transition, every
sequence of state-machine steps stays in the runtime phase (no path
restores the consumed boot table), and no step of it invokes a boot-only
operation. -/
theorem C2_runtime_terminal_no_boot_ops {q : Phase} {acts : List Action}
    (htr : Trace .runtime acts q) :
    q = .runtime ∧ ∀ op, Action.invoke op ∈ acts → op.isBootOnly = false :=
  trace_from_runtime htr rfl

/-- Witness for C2: the one-step runtime trace invoking `getTime`. -/
theorem C2_runtime_terminal_no_boot_ops_witness :
    Phase.runtime = Phase.runtime ∧
    ∀ op, Action.invoke op ∈ [Action.invoke Op.getTimeOp] →
      op.isBootOnly = false :=
  C2_runtime_terminal_no_boot_ops
    (Trace.cons (Step.invoke .runtime .getTimeOp (by decide)) (Trace.nil _))

/-- C10: every operation the runtime-phase table exposes is already
exposed by the boot-phase table (per the crate docs, `SystemTable<Boot>`
provides access to both boot and runtime services), and `getTime` is
exposed by both, so the two phases' capability sets are not disjoint. -/
theorem C10_boot_table_includes_runtime_ops (op : Op)
    (h : available .runtime op = true) :
    available .boot op = true ∧
    (available .runtime .getTimeOp = true ∧
      available .boot .getTimeOp = true) :=
  ⟨by cases op <;> rfl, by decide, by decide⟩

/-- Witness for C10 at the concrete operation `getTime`. -/
theorem C10_boot_table_includes_runtime_ops_witness :
    available .boot .getTimeOp = true ∧
    (available .runtime .getTimeOp = true ∧
      available .boot .getTimeOp = true) :=
  C10_boot_table_includes_runtime_ops .getTimeOp (by decide)

theorem generation_iterate (fw : FwState) (n : Nat) :
    (allocatePages^[n] fw).generation = fw.generation + n := by
  induction n generalizing fw with
  | zero => rfl
  | succ n ih =>
      rw [Function.iterate_succ_apply, ih]
      show fw.generation + 1 + n = fw.generation + (n + 1)
      omega

theorem exitWithRetry_always_stale (fuel i : Nat) (fw : FwState) :
    exitWithRetry (fun _ => true) fuel i fw = none := by
  induction fuel generalizing i fw with
  | zero => rfl
  | succ fuel ih =>
      simp only [exitWithRetry]
      simp [captureMap, exitBootPhase, allocatePages, Except.toOption,
        Option.elim, ih]

/-- C3: an `exit_boot_phase` whose map key predates any number of
intervening allocations fails with the invalid-parameter (stale-key)
error; the bounded capture-then-exit retry loop succeeds within its
remaining fuel as soon as an attempt suffers no intervening allocation;
and exhausting the fuel ceiling — immediately, or under an environment
that interferes at every attempt — is the fatal outcome `none`. -/
theorem C3_stale_key_bounded_retry (fw : FwState) (n fuel i : Nat)
    (interfere : Nat → Bool) (hn : 0 < n) (hi : interfere i = false) :
    exitBootPhase (allocatePages^[n] fw) 0 fw.generation =
      .error .invalidParameter ∧
    exitWithRetry interfere (fuel + 1) i fw = some .runtime ∧
    exitWithRetry interfere 0 i fw = none ∧
    exitWithRetry (fun _ => true) fuel i fw = none := by
  refine ⟨?_, ?_, rfl, exitWithRetry_always_stale fuel i fw⟩
  · unfold exitBootPhase
    rw [if_neg]
    rw [generation_iterate]
    omega
  · simp only [exitWithRetry]
    simp [captureMap, exitBootPhase, Except.toOption, Option.elim, hi]

/-- Witness for C3: one stale allocation, fuel ceiling 3, and a
non-interfering first attempt on an empty firmware state. -/
theorem C3_stale_key_bounded_retry_witness :
    exitBootPhase (allocatePages^[1] (⟨0, [], [], []⟩ : FwState)) 0
      (⟨0, [], [], []⟩ : FwState).generation = .error .invalidParameter ∧
    exitWithRetry (fun _ => false) (2 + 1) 0 ⟨0, [], [], []⟩ =
      some .runtime ∧
    exitWithRetry (fun _ => false) 0 0 ⟨0, [], [], []⟩ = none ∧
    exitWithRetry (fun _ => true) 2 0 ⟨0, [], [], []⟩ = none :=
  C3_stale_key_bounded_retry ⟨0, [], [], []⟩ 1 2 0 (fun _ => false)
    (by decide) (by decide)

end Spec2Proof
